import Mathlib

/-!
The request handler of `src/lambda/index.js`.

A shallow embedding of the single exported function `handler` and of the
JavaScript operations its body uses: object literals with spread, the
order in which an object lists its properties, `JSON.stringify`, the
`try`/`catch` around the dispatch and the final rewrite of the response
headers.

What the source takes from outside is a parameter here: `JSON.parse`,
`Date.now()` and `process.env.TABLE_NAME` are the fields of `Runtime`, and
the document client is a `DocClient`, a state transformer over an
arbitrary store state.
-/

set_option autoImplicit false

namespace Lambda

/-! ## Values -/

/-- The values `JSON.parse` produces and `JSON.stringify` prints. An object
is the list of its properties in creation order. A number is an integer
here; JavaScript prints those up to `2^53` in magnitude in plain decimal. -/
inductive Json where
  | null
  | bool (b : Bool)
  | num (n : Int)
  | str (s : String)
  | arr (xs : List Json)
  | obj (ps : List (String × Json))

mutual
/-- Decides equality of two values. -/
def Json.decEq : (a b : Json) → Decidable (a = b)
  | .null, .null => isTrue rfl
  | .bool a, .bool b =>
    if h : a = b then isTrue (by rw [h]) else isFalse (by intro e; cases e; exact h rfl)
  | .num a, .num b =>
    if h : a = b then isTrue (by rw [h]) else isFalse (by intro e; cases e; exact h rfl)
  | .str a, .str b =>
    if h : a = b then isTrue (by rw [h]) else isFalse (by intro e; cases e; exact h rfl)
  | .arr a, .arr b =>
    match Json.decEqList a b with
    | isTrue h => isTrue (by rw [h])
    | isFalse h => isFalse (by intro e; cases e; exact h rfl)
  | .obj a, .obj b =>
    match Json.decEqProps a b with
    | isTrue h => isTrue (by rw [h])
    | isFalse h => isFalse (by intro e; cases e; exact h rfl)
  | .null, .bool _ | .null, .num _ | .null, .str _ | .null, .arr _ | .null, .obj _
  | .bool _, .null | .bool _, .num _ | .bool _, .str _ | .bool _, .arr _ | .bool _, .obj _
  | .num _, .null | .num _, .bool _ | .num _, .str _ | .num _, .arr _ | .num _, .obj _
  | .str _, .null | .str _, .bool _ | .str _, .num _ | .str _, .arr _ | .str _, .obj _
  | .arr _, .null | .arr _, .bool _ | .arr _, .num _ | .arr _, .str _ | .arr _, .obj _
  | .obj _, .null | .obj _, .bool _ | .obj _, .num _ | .obj _, .str _ | .obj _, .arr _ =>
    isFalse (by intro e; cases e)
/-- Decides equality of two lists of values. -/
def Json.decEqList : (a b : List Json) → Decidable (a = b)
  | [], [] => isTrue rfl
  | [], _ :: _ | _ :: _, [] => isFalse (by intro e; cases e)
  | x :: xs, y :: ys =>
    match Json.decEq x y, Json.decEqList xs ys with
    | isTrue h, isTrue t => isTrue (by rw [h, t])
    | isFalse h, _ => isFalse (by intro e; cases e; exact h rfl)
    | _, isFalse t => isFalse (by intro e; cases e; exact t rfl)
/-- Decides equality of two property lists. -/
def Json.decEqProps : (a b : List (String × Json)) → Decidable (a = b)
  | [], [] => isTrue rfl
  | [], _ :: _ | _ :: _, [] => isFalse (by intro e; cases e)
  | (j, x) :: xs, (k, y) :: ys =>
    if hk : j = k then
      match Json.decEq x y, Json.decEqProps xs ys with
      | isTrue h, isTrue t => isTrue (by rw [hk, h, t])
      | isFalse h, _ => isFalse (by intro e; cases e; exact h rfl)
      | _, isFalse t => isFalse (by intro e; cases e; exact t rfl)
    else isFalse (by intro e; cases e; exact hk rfl)
end

instance : DecidableEq Json := Json.decEq

/-! ## JavaScript objects -/

/-- The own properties of an ordinary object, in the order they were
created. The names of an object are pairwise distinct; where a list repeats
a name, the first entry is the property. -/
abbrev Props (α : Type) := List (String × α)

/-- The value of property `k` (`[[Get]]` on an own data property). -/
def getProp {α : Type} : Props α → String → Option α
  | [], _ => none
  | (j, v) :: rest, k => if j = k then some v else getProp rest k

/-- The operation `CreateDataProperty`: an existing property keeps its place
and takes the new value, a new property is created last. -/
def setProp {α : Type} : Props α → String → α → Props α
  | [], k, v => [(k, v)]
  | (j, w) :: rest, k, v => if j = k then (j, v) :: rest else (j, w) :: setProp rest k v

/-- The number written by a list of decimal digits, `none` when a character
is not a digit. -/
def decimalValue : List Char → Nat → Option Nat
  | [], acc => some acc
  | c :: cs, acc =>
    if 48 ≤ c.toNat ∧ c.toNat ≤ 57 then decimalValue cs (acc * 10 + (c.toNat - 48)) else none

/-- A property name is an array index when it is the canonical decimal text
of an integer below `2^32 - 1`. -/
def arrayIndex? (k : String) : Option Nat :=
  match decimalValue k.data 0 with
  | some n => if toString n = k ∧ n < 4294967295 then some n else none
  | none => none

/-- The array-index names of an object with their numbers, ascending. -/
def indexKeys {α : Type} (o : Props α) : List (Nat × String) :=
  (o.filterMap (fun p => (arrayIndex? p.1).map (fun n => (n, p.1)))).insertionSort
    (fun a b => a.1 ≤ b.1)

/-- The operation `OrdinaryOwnPropertyKeys`: array indices in ascending
order, then the other names in creation order. -/
def ownKeys {α : Type} (o : Props α) : List String :=
  (indexKeys o).map Prod.snd ++ (o.filter (fun p => (arrayIndex? p.1).isNone)).map Prod.fst

/-- The properties of an object in the order `ownKeys` lists them. -/
def ownEntries {α : Type} (o : Props α) : Props α :=
  (ownKeys o).filterMap (fun k => (getProp o k).map (fun v => (k, v)))

/-- The operation `CopyDataProperties`, the `...source` of an object literal:
each own property of the source, in `ownKeys` order, is read and created on
the target. -/
def copyDataProperties {α : Type} (target source : Props α) : Props α :=
  (ownKeys source).foldl
    (fun t k => match getProp source k with
      | some v => setProp t k v
      | none => t)
    target

/-- The own enumerable properties a value shows when it is spread: those of
an object, the elements of an array under their indices, the characters of
a string under their indices (one per character; JavaScript counts UTF-16
code units, the same for text of the basic plane), nothing for `null`, a
boolean or a number. -/
def enumerableProps : Json → Props Json
  | .obj ps => ps
  | .arr xs => xs.enum.map (fun p => (toString p.1, p.2))
  | .str s => s.data.enum.map (fun p => (toString p.1, Json.str (String.mk [p.2])))
  | _ => []

/-! ## `JSON.stringify` -/

/-- A hexadecimal digit in lower case. -/
def hexDigit (n : Nat) : Char :=
  if n < 10 then Char.ofNat (48 + n) else Char.ofNat (87 + n)

/-- The escape of one character inside a JSON string (`QuoteJSONString`):
the quote, the backslash and the control characters are escaped. -/
def escapeChar (c : Char) : List Char :=
  if c.toNat = 34 then [Char.ofNat 92, Char.ofNat 34]
  else if c.toNat = 92 then [Char.ofNat 92, Char.ofNat 92]
  else if c.toNat = 8 then [Char.ofNat 92, 'b']
  else if c.toNat = 12 then [Char.ofNat 92, 'f']
  else if c.toNat = 10 then [Char.ofNat 92, 'n']
  else if c.toNat = 13 then [Char.ofNat 92, 'r']
  else if c.toNat = 9 then [Char.ofNat 92, 't']
  else if c.toNat < 32 then
    [Char.ofNat 92, 'u', '0', '0', hexDigit (c.toNat / 16), hexDigit (c.toNat % 16)]
  else [c]

/-- The text of a string between double quotes. -/
def quote (s : String) : String :=
  String.mk (Char.ofNat 34 :: (s.data.flatMap escapeChar ++ [Char.ofNat 34]))

/-- The members of a printed object: `"name":value`, comma separated. -/
def joinMembers (ms : Props String) : String :=
  ",".intercalate ((ownEntries ms).map (fun p => quote p.1 ++ ":" ++ p.2))

namespace JSON

mutual
/-- The text `JSON.stringify(value)` returns, without indentation. -/
def stringify : Json → String
  | .null => "null"
  | .bool b => if b then "true" else "false"
  | .num n => toString n
  | .str s => quote s
  | .arr xs => "[" ++ ",".intercalate (stringifyList xs) ++ "]"
  | .obj ps => "\x7b" ++ joinMembers (stringifyProps ps) ++ "\x7d"
/-- The printed elements of an array. -/
def stringifyList : List Json → List String
  | [] => []
  | x :: xs => stringify x :: stringifyList xs
/-- The properties of an object with each value printed. -/
def stringifyProps : List (String × Json) → Props String
  | [] => []
  | (k, v) :: ps => (k, stringify v) :: stringifyProps ps
end

end JSON

/-! ## The handler and what it is given -/

/-- The trigger event: `event.httpMethod` and `event.body`, each absent
(`none`) or a string. -/
structure Event where
  httpMethod : Option String
  body : Option String

/-- What an invocation reads from the JavaScript runtime: the clock
`Date.now()` in milliseconds since the epoch, the environment variable
`process.env.TABLE_NAME` (`none` when unset) and `JSON.parse`, which
returns a value or throws an error with a message. -/
structure Runtime where
  now : Nat
  TABLE_NAME : Option String
  parse : Option String → Except String Json

/-- The input of `new PutCommand({ TableName, Item })`. -/
structure PutCommand where
  TableName : Option String
  Item : Json

/-- The input of `new ScanCommand({ TableName })`. -/
structure ScanCommand where
  TableName : Option String

/-- A command sent to the document client. -/
inductive Command where
  | put (c : PutCommand)
  | scan (c : ScanCommand)

instance : DecidableEq PutCommand := fun a b =>
  match a, b with
  | ⟨t, i⟩, ⟨u, j⟩ =>
    if h : t = u ∧ i = j then isTrue (by rw [h.1, h.2])
    else isFalse (by intro e; cases e; exact h ⟨rfl, rfl⟩)

instance : DecidableEq ScanCommand := fun a b =>
  match a, b with
  | ⟨t⟩, ⟨u⟩ =>
    if h : t = u then isTrue (by rw [h]) else isFalse (by intro e; cases e; exact h rfl)

instance : DecidableEq Command := fun a b =>
  match a, b with
  | .put c, .put d =>
    if h : c = d then isTrue (by rw [h]) else isFalse (by intro e; cases e; exact h rfl)
  | .scan c, .scan d =>
    if h : c = d then isTrue (by rw [h]) else isFalse (by intro e; cases e; exact h rfl)
  | .put _, .scan _ | .scan _, .put _ => isFalse (by intro e; cases e)

/-- The document client `docClient` over a store state `σ`:
`docClient.send(command)` resolves, or rejects with an error carrying a
message, and leaves the store in a new state. A scan resolves to its
`Items`. -/
structure DocClient (σ : Type) where
  sendPut : PutCommand → σ → Except String Unit × σ
  sendScan : ScanCommand → σ → Except String (List Json) × σ

/-- The response object: `statusCode`, `headers` and `body`. -/
structure Response where
  statusCode : Nat
  headers : Props String
  body : String
  deriving DecidableEq

/-- The object literal `{ id: Date.now().toString(), ...body }` of the
`POST` case: the property `id` is created first with the clock text, then
the properties of the parsed body are copied over it. -/
def itemToPut (now : Nat) (body : Json) : Json :=
  .obj (copyDataProperties [("id", .str (toString now))] (enumerableProps body))

/-- The body of the `try` block: the `switch` on `event.httpMethod`. The
result is the response of the case taken, or the message of the error
thrown in it, with the store state the calls made so far have left. -/
def dispatch {σ : Type} (rt : Runtime) (docClient : DocClient σ) (event : Event) (s : σ) :
    Except String Response × σ :=
  let tableName := rt.TABLE_NAME
  if event.httpMethod = some "POST" then
    match rt.parse event.body with
    | .error message => (.error message, s)
    | .ok body =>
      let item := itemToPut rt.now body
      let putCommand : PutCommand := { TableName := tableName, Item := item }
      match docClient.sendPut putCommand s with
      | (.error message, s1) => (.error message, s1)
      | (.ok _, s1) =>
        (.ok { statusCode := 201
               headers := [("Content-Type", "application/json")]
               body := JSON.stringify item }, s1)
  else if event.httpMethod = some "GET" then
    let scanCommand : ScanCommand := { TableName := tableName }
    match docClient.sendScan scanCommand s with
    | (.error message, s1) => (.error message, s1)
    | (.ok Items, s1) =>
      (.ok { statusCode := 200
             headers := [("Content-Type", "application/json")]
             body := JSON.stringify (.arr Items) }, s1)
  else
    (.ok { statusCode := 405
           headers := [("Content-Type", "application/json")]
           body := JSON.stringify (.obj [("message", .str "Method Not Allowed")]) }, s)

/-- The response of the `catch` block for an error with message `message`. -/
def errorResponse (message : String) : Response :=
  { statusCode := 500
    headers := [("Content-Type", "application/json")]
    body := JSON.stringify
      (.obj [("message", .str "Internal Server Error"), ("error", .str message)]) }

/-- The headers assigned after the `try`/`catch`: the literal
`{ ...response.headers, k1: v1, k2: v2, k3: v3 }`. -/
def withCors (headers : Props String) : Props String :=
  setProp
    (setProp
      (setProp (copyDataProperties [] headers) "Access-Control-Allow-Origin" "*")
      "Access-Control-Allow-Methods" "GET, POST, OPTIONS")
    "Access-Control-Allow-Headers" "Content-Type"

/-- The exported `handler`: the response it resolves to and the state it
leaves the store in. The two `console` calls write to the log only and have
no part in the result. -/
def handler {σ : Type} (rt : Runtime) (docClient : DocClient σ) (event : Event) (s : σ) :
    Response × σ :=
  let attempt := dispatch rt docClient event s
  let response : Response :=
    match attempt.1 with
    | .ok r => r
    | .error message => errorResponse message
  ({ response with headers := withCors response.headers }, attempt.2)

/-! ## Stores -/

/-- A client that keeps, next to the state of `inner`, the commands sent to
it, oldest first. -/
def recording {σ : Type} (inner : DocClient σ) : DocClient (σ × List Command) where
  sendPut c st := ((inner.sendPut c st.1).1, ((inner.sendPut c st.1).2, st.2 ++ [Command.put c]))
  sendScan c st :=
    ((inner.sendScan c st.1).1, ((inner.sendScan c st.1).2, st.2 ++ [Command.scan c]))

/-- The key of an item: the value of its `id` attribute. -/
def itemKey : Json → Option Json
  | .obj ps => getProp ps "id"
  | _ => none

/-- Writes an item into a table: the item with the same key is replaced,
otherwise the item is added. -/
def putItem : List Json → Json → List Json
  | [], item => [item]
  | x :: xs, item => if itemKey x = itemKey item then item :: xs else x :: putItem xs item

/-- Modelled from the spec: the external store, which is not part of the
repository. One table keyed by `id`: `put` inserts the record or overwrites
the record with the same identifier, `scan` returns all records and changes
nothing; neither fails. -/
def tableStore : DocClient (List Json) where
  sendPut c items := (.ok (), putItem items c.Item)
  sendScan _ items := (.ok items, items)

/-- A sequence of invocations, each with its own runtime readings, run one
after the other on the same store: the responses in order and the final
store state. -/
def invokeAll {σ : Type} (docClient : DocClient σ) : List (Runtime × Event) → σ → List Response × σ
  | [], s => ([], s)
  | (rt, event) :: rest, s =>
    let r := handler rt docClient event s
    let rs := invokeAll docClient rest r.2
    (r.1 :: rs.1, rs.2)

/-- The items of the put commands of a call trace, oldest first. -/
def sentItems : List Command → List Json
  | [] => []
  | .put c :: rest => c.Item :: sentItems rest
  | .scan _ :: rest => sentItems rest

/-! ## Sample inputs -/

/-- A `JSON.parse` for the request bodies of the scenarios: an absent body
and text that is not JSON throw, the four JSON texts listed parse to their
objects. -/
def sampleParse : Option String → Except String Json
  | none => .error "\"undefined\" is not valid JSON"
  | some text =>
    if text = "\x7b\"name\":\"a\"\x7d" then .ok (.obj [("name", .str "a")])
    else if text = "\x7b\"name\":\"b\"\x7d" then .ok (.obj [("name", .str "b")])
    else if text = "\x7b\"id\":\"custom\",\"x\":1\x7d" then
      .ok (.obj [("id", .str "custom"), ("x", .num 1)])
    else if text = "\x7b\"id\":\"\"\x7d" then .ok (.obj [("id", .str "")])
    else .error "Unexpected token"

/-- A runtime with the clock at `now`, the table `items` and `sampleParse`. -/
def sampleRuntime (now : Nat) : Runtime :=
  { now := now, TABLE_NAME := some "items", parse := sampleParse }

/-- A `POST` event with the given body text. -/
def postEvent (text : String) : Event := { httpMethod := some "POST", body := some text }

/-- A `GET` event without body. -/
def getEvent : Event := { httpMethod := some "GET", body := none }

/-- A client whose every call is rejected with the given message. -/
def failingClient (message : String) : DocClient Unit where
  sendPut _ s := (.error message, s)
  sendScan _ s := (.error message, s)

/-! ## Lemmas on objects -/

theorem getProp_setProp {α : Type} (o : Props α) (k j : String) (v : α) :
    getProp (setProp o k v) j = if k = j then some v else getProp o j := by
  induction o with
  | nil => simp [setProp, getProp]
  | cons p rest ih =>
    obtain ⟨i, w⟩ := p
    by_cases hik : i = k
    · subst hik
      by_cases hij : i = j <;> simp [setProp, getProp, hij]
    · by_cases hij : i = j
      · subst hij
        have hki : ¬ k = i := fun h => hik h.symm
        simp [setProp, getProp, hik, hki]
      · simp [setProp, getProp, hik, hij, ih]

theorem getProp_isSome_iff {α : Type} (o : Props α) (k : String) :
    (getProp o k).isSome ↔ k ∈ o.map Prod.fst := by
  induction o with
  | nil => simp [getProp]
  | cons p rest ih =>
    obtain ⟨i, w⟩ := p
    by_cases hik : i = k
    · simp [getProp, hik]
    · have hki : ¬ k = i := fun h => hik h.symm
      simp [getProp, hik, hki, ih]

theorem mem_indexKeys {α : Type} (o : Props α) (n : Nat) (k : String) :
    (n, k) ∈ indexKeys o ↔ k ∈ o.map Prod.fst ∧ arrayIndex? k = some n := by
  unfold indexKeys
  rw [(List.perm_insertionSort _ _).mem_iff]
  simp only [List.mem_filterMap, List.mem_map, Option.map_eq_some', Prod.mk.injEq, Prod.exists]
  constructor
  · rintro ⟨a, b, hmem, m, hm, rfl, rfl⟩
    exact ⟨⟨a, b, hmem, rfl⟩, hm⟩
  · rintro ⟨⟨a, b, hmem, rfl⟩, hm⟩
    exact ⟨a, b, hmem, n, hm, rfl, rfl⟩

theorem mem_ownKeys {α : Type} (o : Props α) (k : String) :
    k ∈ ownKeys o ↔ k ∈ o.map Prod.fst := by
  unfold ownKeys
  rw [List.mem_append]
  constructor
  · rintro (h | h)
    · obtain ⟨⟨n, j⟩, hmem, rfl⟩ := List.mem_map.1 h
      exact ((mem_indexKeys o n j).1 hmem).1
    · obtain ⟨p, hmem, rfl⟩ := List.mem_map.1 h
      exact List.mem_map.2 ⟨p, (List.mem_filter.1 hmem).1, rfl⟩
  · intro h
    cases hidx : arrayIndex? k with
    | none =>
      obtain ⟨p, hmem, rfl⟩ := List.mem_map.1 h
      exact Or.inr (List.mem_map.2 ⟨p, List.mem_filter.2 ⟨hmem, by simp [hidx]⟩, rfl⟩)
    | some n =>
      exact Or.inl (List.mem_map.2 ⟨(n, k), (mem_indexKeys o n k).2 ⟨h, hidx⟩, rfl⟩)

/-- The step of `copyDataProperties` for one name of the source. -/
theorem getProp_foldl_copy {α : Type} (source : Props α) (ks : List String) (t : Props α)
    (k : String) :
    getProp (ks.foldl
      (fun t k => match getProp source k with
        | some v => setProp t k v
        | none => t) t) k
      = if k ∈ ks then (getProp source k).orElse (fun _ => getProp t k) else getProp t k := by
  induction ks generalizing t with
  | nil => simp
  | cons a ks ih =>
    simp only [List.foldl_cons, ih, List.mem_cons]
    by_cases hak : a = k
    · subst hak
      cases hsrc : getProp source a with
      | none => simp [hsrc]
      | some v => simp [hsrc, getProp_setProp]
    · have hka : ¬ k = a := fun h => hak h.symm
      cases hsrc : getProp source a with
      | none => simp [hka]
      | some v => simp [hka, getProp_setProp, hak]

theorem getProp_copyDataProperties {α : Type} (target source : Props α) (k : String) :
    getProp (copyDataProperties target source) k
      = (getProp source k).orElse (fun _ => getProp target k) := by
  unfold copyDataProperties
  rw [getProp_foldl_copy]
  by_cases hk : k ∈ ownKeys source
  · simp [hk]
  · have hnone : getProp source k = none := by
      have := (getProp_isSome_iff source k).not.2 (fun h => hk ((mem_ownKeys source k).2 h))
      simpa using this
    simp [hk, hnone]


/-! ## Lemmas on the printed text -/

theorem digitChar_digit (d : Nat) (h : d < 10) :
    48 ≤ (Nat.digitChar d).toNat ∧ (Nat.digitChar d).toNat ≤ 57 := by
  interval_cases d <;> decide

theorem toDigitsCore_digits (f : Nat) : ∀ (n : Nat) (ds : List Char),
    (∀ c ∈ ds, 48 ≤ c.toNat ∧ c.toNat ≤ 57) →
    ∀ c ∈ Nat.toDigitsCore 10 f n ds, 48 ≤ c.toNat ∧ c.toNat ≤ 57 := by
  induction f with
  | zero => intro n ds h; simpa [Nat.toDigitsCore] using h
  | succ f ih =>
    intro n ds h
    have hd := digitChar_digit (n % 10) (Nat.mod_lt _ (by decide))
    have hcons : ∀ c ∈ Nat.digitChar (n % 10) :: ds, 48 ≤ c.toNat ∧ c.toNat ≤ 57 := by
      intro c hc
      rcases List.mem_cons.1 hc with rfl | hc
      · exact hd
      · exact h c hc
    simp only [Nat.toDigitsCore]
    split_ifs
    · exact hcons
    · exact ih _ _ hcons

theorem toString_digits (n : Nat) : ∀ c ∈ (toString n).data, 48 ≤ c.toNat ∧ c.toNat ≤ 57 := by
  show ∀ c ∈ (Nat.repr n).data, _
  simp only [Nat.repr, Nat.toDigits, List.asString]
  exact toDigitsCore_digits _ _ _ (by simp)

theorem toDigitsCore_ne_nil (f : Nat) : ∀ (n : Nat) (ds : List Char), ds ≠ [] →
    Nat.toDigitsCore 10 f n ds ≠ [] := by
  induction f with
  | zero => intro n ds h; simpa [Nat.toDigitsCore] using h
  | succ f ih =>
    intro n ds h
    simp only [Nat.toDigitsCore]
    split_ifs
    · simp
    · exact ih _ _ (by simp)

theorem toString_ne_empty (n : Nat) : toString n ≠ "" := by
  show Nat.repr n ≠ ""
  intro h
  have hdata : (Nat.repr n).data = [] := by rw [h]
  simp only [Nat.repr, Nat.toDigits, List.asString, Nat.toDigitsCore] at hdata
  split_ifs at hdata
  exact toDigitsCore_ne_nil _ _ _ (by simp) hdata

theorem escapeChar_digit (c : Char) (h : 48 ≤ c.toNat ∧ c.toNat ≤ 57) : escapeChar c = [c] := by
  unfold escapeChar
  have h1 : ¬ c.toNat = 34 := by omega
  have h2 : ¬ c.toNat = 92 := by omega
  have h3 : ¬ c.toNat = 8 := by omega
  have h4 : ¬ c.toNat = 12 := by omega
  have h5 : ¬ c.toNat = 10 := by omega
  have h6 : ¬ c.toNat = 13 := by omega
  have h7 : ¬ c.toNat = 9 := by omega
  have h8 : ¬ c.toNat < 32 := by omega
  simp [h1, h2, h3, h4, h5, h6, h7, h8]

theorem flatMap_escapeChar_digits (cs : List Char) (h : ∀ c ∈ cs, 48 ≤ c.toNat ∧ c.toNat ≤ 57) :
    cs.flatMap escapeChar = cs := by
  induction cs with
  | nil => rfl
  | cons c cs ih =>
    simp only [List.flatMap_cons]
    rw [escapeChar_digit c (h c (List.mem_cons_self _ _)),
      ih (fun d hd => h d (List.mem_cons_of_mem _ hd))]
    rfl

theorem quote_toString (n : Nat) : quote (toString n) = "\"" ++ toString n ++ "\"" := by
  unfold quote
  rw [flatMap_escapeChar_digits _ (toString_digits n)]
  rfl

theorem stringify_id_name (now : Nat) :
    JSON.stringify (.obj [("id", .str (toString now)), ("name", .str "a")]) =
      "\x7b\"id\":\"" ++ toString now ++ "\",\"name\":\"a\"\x7d" := by
  have e : JSON.stringify (.obj [("id", .str (toString now)), ("name", .str "a")]) =
      "\x7b" ++ (quote "id" ++ ":" ++ quote (toString now) ++ ","
        ++ (quote "name" ++ ":" ++ quote "a")) ++ "\x7d" := by
    rfl
  have q1 : quote "id" = "\"id\"" := by decide
  have q2 : quote "name" = "\"name\"" := by decide
  have q3 : quote "a" = "\"a\"" := by decide
  rw [e, quote_toString, q1, q2, q3]
  apply String.ext
  simp [String.data_append]

/-! ## The paths of the handler -/

theorem withCors_contentType :
    withCors [("Content-Type", "application/json")] =
      [("Content-Type", "application/json"), ("Access-Control-Allow-Origin", "*"),
        ("Access-Control-Allow-Methods", "GET, POST, OPTIONS"),
        ("Access-Control-Allow-Headers", "Content-Type")] := by
  decide

theorem handler_post_parse_error {σ : Type} (rt : Runtime) (docClient : DocClient σ)
    (event : Event) (s : σ) (m : String)
    (hmethod : event.httpMethod = some "POST") (hparse : rt.parse event.body = .error m) :
    handler rt docClient event s =
      ({ errorResponse m with headers := withCors (errorResponse m).headers }, s) := by
  simp [handler, dispatch, hmethod, hparse]

theorem handler_post_put_error {σ : Type} (rt : Runtime) (docClient : DocClient σ)
    (event : Event) (s : σ) (body : Json) (m : String)
    (hmethod : event.httpMethod = some "POST") (hparse : rt.parse event.body = .ok body)
    (hput : (docClient.sendPut ⟨rt.TABLE_NAME, itemToPut rt.now body⟩ s).1 = .error m) :
    handler rt docClient event s =
      ({ errorResponse m with headers := withCors (errorResponse m).headers },
        (docClient.sendPut ⟨rt.TABLE_NAME, itemToPut rt.now body⟩ s).2) := by
  cases hsend : docClient.sendPut ⟨rt.TABLE_NAME, itemToPut rt.now body⟩ s with
  | mk r s1 =>
    rw [hsend] at hput
    simp only at hput
    subst hput
    simp [handler, dispatch, hmethod, hparse, hsend]

theorem handler_post_ok {σ : Type} (rt : Runtime) (docClient : DocClient σ)
    (event : Event) (s : σ) (body : Json)
    (hmethod : event.httpMethod = some "POST") (hparse : rt.parse event.body = .ok body)
    (hput : (docClient.sendPut ⟨rt.TABLE_NAME, itemToPut rt.now body⟩ s).1 = .ok ()) :
    handler rt docClient event s =
      ({ statusCode := 201
         headers := withCors [("Content-Type", "application/json")]
         body := JSON.stringify (itemToPut rt.now body) },
        (docClient.sendPut ⟨rt.TABLE_NAME, itemToPut rt.now body⟩ s).2) := by
  cases hsend : docClient.sendPut ⟨rt.TABLE_NAME, itemToPut rt.now body⟩ s with
  | mk r s1 =>
    rw [hsend] at hput
    simp only at hput
    subst hput
    simp [handler, dispatch, hmethod, hparse, hsend]

theorem handler_get_error {σ : Type} (rt : Runtime) (docClient : DocClient σ)
    (event : Event) (s : σ) (m : String)
    (hmethod : event.httpMethod = some "GET")
    (hscan : (docClient.sendScan ⟨rt.TABLE_NAME⟩ s).1 = .error m) :
    handler rt docClient event s =
      ({ errorResponse m with headers := withCors (errorResponse m).headers },
        (docClient.sendScan ⟨rt.TABLE_NAME⟩ s).2) := by
  cases hsend : docClient.sendScan ⟨rt.TABLE_NAME⟩ s with
  | mk r s1 =>
    rw [hsend] at hscan
    simp only at hscan
    subst hscan
    simp [handler, dispatch, hmethod, hsend]

theorem handler_get_ok {σ : Type} (rt : Runtime) (docClient : DocClient σ)
    (event : Event) (s : σ) (L : List Json)
    (hmethod : event.httpMethod = some "GET")
    (hscan : (docClient.sendScan ⟨rt.TABLE_NAME⟩ s).1 = .ok L) :
    handler rt docClient event s =
      ({ statusCode := 200
         headers := withCors [("Content-Type", "application/json")]
         body := JSON.stringify (.arr L) },
        (docClient.sendScan ⟨rt.TABLE_NAME⟩ s).2) := by
  cases hsend : docClient.sendScan ⟨rt.TABLE_NAME⟩ s with
  | mk r s1 =>
    rw [hsend] at hscan
    simp only at hscan
    subst hscan
    simp [handler, dispatch, hmethod, hsend]

theorem handler_other {σ : Type} (rt : Runtime) (docClient : DocClient σ)
    (event : Event) (s : σ)
    (hpost : event.httpMethod ≠ some "POST") (hget : event.httpMethod ≠ some "GET") :
    handler rt docClient event s =
      ({ statusCode := 405
         headers := withCors [("Content-Type", "application/json")]
         body := JSON.stringify (.obj [("message", .str "Method Not Allowed")]) }, s) := by
  simp [handler, dispatch, hpost, hget]

theorem stringifyList_eq_map (xs : List Json) :
    JSON.stringifyList xs = xs.map JSON.stringify := by
  induction xs with
  | nil => rfl
  | cons x xs ih => simp [JSON.stringifyList, ih]

theorem stringify_arr (xs : List Json) :
    JSON.stringify (.arr xs) = "[" ++ ",".intercalate (xs.map JSON.stringify) ++ "]" := by
  rw [← stringifyList_eq_map]
  rfl

theorem stringify_notAllowed :
    JSON.stringify (.obj [("message", .str "Method Not Allowed")])
      = "\x7b\"message\":\"Method Not Allowed\"\x7d" := by
  decide

theorem stringify_error (m : String) :
    JSON.stringify (.obj [("message", .str "Internal Server Error"), ("error", .str m)]) =
      "\x7b\"message\":\"Internal Server Error\",\"error\":" ++ quote m ++ "\x7d" := by
  have e : JSON.stringify (.obj [("message", .str "Internal Server Error"), ("error", .str m)]) =
      "\x7b" ++ (quote "message" ++ ":" ++ quote "Internal Server Error" ++ ","
        ++ (quote "error" ++ ":" ++ quote m)) ++ "\x7d" := by
    rfl
  have q1 : quote "message" = "\"message\"" := by decide
  have q2 : quote "Internal Server Error" = "\"Internal Server Error\"" := by decide
  have q3 : quote "error" = "\"error\"" := by decide
  rw [e, q1, q2, q3]
  apply String.ext
  simp [String.data_append]

theorem itemKey_itemToPut (now : Nat) (body : Json) :
    itemKey (itemToPut now body) =
      (getProp (enumerableProps body) "id").orElse (fun _ => some (.str (toString now))) := by
  simp [itemKey, itemToPut, getProp_copyDataProperties, getProp]

/-! ## Lemmas on the table and on runs -/

theorem sentItems_append_put (tr : List Command) (c : PutCommand) :
    sentItems (tr ++ [.put c]) = sentItems tr ++ [c.Item] := by
  induction tr with
  | nil => rfl
  | cons a tr ih =>
    cases a with
    | put d => simp [sentItems, ih]
    | scan d => simp [sentItems, ih]

theorem putItem_new (xs : List Json) (item : Json)
    (hnew : itemKey item ∉ xs.map itemKey) : putItem xs item = xs ++ [item] := by
  induction xs with
  | nil => rfl
  | cons x xs ih =>
    have hx : ¬ itemKey x = itemKey item := fun h => hnew (by simp [h])
    have hrest : itemKey item ∉ xs.map itemKey := fun h => hnew (by simp at h ⊢; exact Or.inr h)
    simp [putItem, hx, ih hrest]

theorem foldl_putItem_distinct (records : List Json) : ∀ s : List Json,
    ((s ++ records).map itemKey).Nodup → records.foldl putItem s = s ++ records := by
  induction records with
  | nil => intro s _; simp
  | cons r records ih =>
    intro s hnodup
    have hnew : itemKey r ∉ s.map itemKey := by
      intro hmem
      rw [List.map_append, List.map_cons] at hnodup
      exact (List.disjoint_of_nodup_append hnodup) hmem (List.mem_cons_self _ _)
    rw [List.foldl_cons, putItem_new s r hnew, ih (s ++ [r]) (by simpa using hnodup)]
    simp

theorem handler_post_table (rt : Runtime) (event : Event) (s : List Json) (tr : List Command)
    (body : Json) (hmethod : event.httpMethod = some "POST")
    (hparse : rt.parse event.body = .ok body) :
    handler rt (recording tableStore) event (s, tr) =
      ({ statusCode := 201
         headers := withCors [("Content-Type", "application/json")]
         body := JSON.stringify (itemToPut rt.now body) },
        (putItem s (itemToPut rt.now body),
          tr ++ [.put ⟨rt.TABLE_NAME, itemToPut rt.now body⟩])) :=
  handler_post_ok rt (recording tableStore) event (s, tr) body hmethod hparse rfl

theorem invokeAll_posts (reqs : List (Runtime × Event)) : ∀ (s : List Json) (tr : List Command),
    (∀ r ∈ reqs, r.2.httpMethod = some "POST") →
    (∀ resp ∈ (invokeAll (recording tableStore) reqs (s, tr)).1, resp.statusCode = 201) →
    ∃ records : List Json, records.length = reqs.length ∧
      (invokeAll (recording tableStore) reqs (s, tr)).1.map (fun resp => resp.body)
        = records.map JSON.stringify ∧
      (invokeAll (recording tableStore) reqs (s, tr)).2.1 = records.foldl putItem s ∧
      sentItems (invokeAll (recording tableStore) reqs (s, tr)).2.2 = sentItems tr ++ records := by
  induction reqs with
  | nil => intro s tr _ _; exact ⟨[], rfl, rfl, rfl, by simp [invokeAll]⟩
  | cons r reqs ih =>
    obtain ⟨rt, event⟩ := r
    intro s tr hposts hok
    have hmethod : event.httpMethod = some "POST" := hposts (rt, event) (List.mem_cons_self _ _)
    cases hparse : rt.parse event.body with
    | error m =>
      have h500 := hok (handler rt (recording tableStore) event (s, tr)).1
        (by simp [invokeAll])
      rw [handler_post_parse_error rt (recording tableStore) event (s, tr) m hmethod hparse]
        at h500
      exact absurd h500 (by simp [errorResponse])
    | ok body =>
      have hrun := handler_post_table rt event s tr body hmethod hparse
      have hrest : ∀ resp ∈ (invokeAll (recording tableStore) reqs
          (putItem s (itemToPut rt.now body),
            tr ++ [.put ⟨rt.TABLE_NAME, itemToPut rt.now body⟩])).1, resp.statusCode = 201 := by
        intro resp hresp
        apply hok
        simp only [invokeAll, hrun, List.mem_cons]
        exact Or.inr hresp
      obtain ⟨records, hlen, hbodies, hstore, hsent⟩ :=
        ih (putItem s (itemToPut rt.now body))
          (tr ++ [.put ⟨rt.TABLE_NAME, itemToPut rt.now body⟩])
          (fun q hq => hposts q (List.mem_cons_of_mem _ hq)) hrest
      refine ⟨itemToPut rt.now body :: records, by simp [hlen], ?_, ?_, ?_⟩
      · simp only [invokeAll, hrun, List.map_cons, hbodies]
      · simp only [invokeAll, hrun, List.foldl_cons, hstore]
      · simp only [invokeAll, hrun, hsent, sentItems_append_put, List.append_assoc,
          List.singleton_append]

/-! ## The claims -/

/-- C1: a `POST` whose body parses as a JSON object `B` and whose put
succeeds is answered with status 201 and a body that is the JSON encoding of
a record holding every field of `B` with the value `B` gives it, and a field
`id`, nothing else; when `B` has no `id`, the `id` is the decimal text of the
clock reading. For the body `{"name":"a"}` the response body is
`{"id":"<clock>","name":"a"}`. -/
theorem post_created_record {σ : Type} (rt : Runtime) (docClient : DocClient σ)
    (event : Event) (s : σ) (B : Props Json)
    (hmethod : event.httpMethod = some "POST")
    (hparse : rt.parse event.body = .ok (.obj B))
    (hput : (docClient.sendPut ⟨rt.TABLE_NAME, itemToPut rt.now (.obj B)⟩ s).1 = .ok ()) :
    ∃ record : Props Json,
      (handler rt docClient event s).1.statusCode = 201 ∧
      (handler rt docClient event s).1.body = JSON.stringify (.obj record) ∧
      (∀ k v, getProp B k = some v → getProp record k = some v) ∧
      (getProp B "id" = none → getProp record "id" = some (.str (toString rt.now))) ∧
      (∀ k, (getProp record k).isSome ↔ (k = "id" ∨ (getProp B k).isSome)) ∧
      (B = [("name", .str "a")] →
        (handler rt docClient event s).1.body =
          "\x7b\"id\":\"" ++ toString rt.now ++ "\",\"name\":\"a\"\x7d") := by
  refine ⟨copyDataProperties [("id", .str (toString rt.now))] B, ?_, ?_, ?_, ?_, ?_, ?_⟩
  · rw [handler_post_ok rt docClient event s _ hmethod hparse hput]
  · rw [handler_post_ok rt docClient event s _ hmethod hparse hput]
    rfl
  · intro k v hk
    rw [getProp_copyDataProperties, hk]
    rfl
  · intro hid
    rw [getProp_copyDataProperties, hid]
    simp [getProp]
  · intro k
    rw [getProp_copyDataProperties]
    cases hk : getProp B k with
    | some v => simp
    | none =>
      by_cases hid : k = "id"
      · simp [getProp, hid]
      · have hid2 : ¬ "id" = k := fun h => hid h.symm
        simp [getProp, hid, hid2]
  · intro hB
    subst hB
    rw [handler_post_ok rt docClient event s _ hmethod hparse hput]
    exact stringify_id_name rt.now

/-- Witness of C1: the body `{"name":"a"}` posted at clock 1700000000000
to an empty table. -/
theorem post_created_record_witness :
    (sampleRuntime 1700000000000).parse (postEvent "\x7b\"name\":\"a\"\x7d").body
        = .ok (.obj [("name", .str "a")]) ∧
      (handler (sampleRuntime 1700000000000) tableStore
        (postEvent "\x7b\"name\":\"a\"\x7d") []).1.statusCode = 201 ∧
      (handler (sampleRuntime 1700000000000) tableStore
        (postEvent "\x7b\"name\":\"a\"\x7d") []).1.body
        = "\x7b\"id\":\"1700000000000\",\"name\":\"a\"\x7d" :=
  match post_created_record (sampleRuntime 1700000000000) tableStore
    (postEvent "\x7b\"name\":\"a\"\x7d") [] [("name", .str "a")] rfl rfl rfl with
  | ⟨_, h1, _, _, _, _, h6⟩ => ⟨rfl, h1, h6 rfl⟩

/-- C2, as the code has it: a successful `POST` sends one put to the store.
When the parsed body has no `id` property, the `id` of the record written is
the decimal text of the clock reading, which is not empty; when the parsed
body has an `id` property, the record written keeps that value. -/
theorem post_stored_id {σ : Type} (rt : Runtime) (docClient : DocClient σ)
    (event : Event) (s : σ) (tr : List Command) (body : Json)
    (hmethod : event.httpMethod = some "POST")
    (hparse : rt.parse event.body = .ok body)
    (hput : (docClient.sendPut ⟨rt.TABLE_NAME, itemToPut rt.now body⟩ s).1 = .ok ()) :
    ∃ item : Json,
      (handler rt (recording docClient) event (s, tr)).2.2
        = tr ++ [.put ⟨rt.TABLE_NAME, item⟩] ∧
      (getProp (enumerableProps body) "id" = none →
        itemKey item = some (.str (toString rt.now)) ∧ toString rt.now ≠ "") ∧
      (∀ v, getProp (enumerableProps body) "id" = some v → itemKey item = some v) := by
  refine ⟨itemToPut rt.now body, ?_, ?_, ?_⟩
  · rw [handler_post_ok rt (recording docClient) event (s, tr) body hmethod hparse hput]
    rfl
  · intro hid
    refine ⟨?_, toString_ne_empty rt.now⟩
    rw [itemKey_itemToPut, hid]
    rfl
  · intro v hid
    rw [itemKey_itemToPut, hid]
    rfl

/-- Witness of C2 as amended: the body `{"name":"a"}`, which has no `id`. -/
theorem post_stored_id_witness :
    (sampleRuntime 1700000000000).parse (postEvent "\x7b\"name\":\"a\"\x7d").body
        = .ok (.obj [("name", .str "a")]) ∧
      ∃ item : Json,
        (handler (sampleRuntime 1700000000000) (recording tableStore)
          (postEvent "\x7b\"name\":\"a\"\x7d") ([], [])).2.2
          = [.put ⟨some "items", item⟩] ∧
        itemKey item = some (.str "1700000000000") :=
  match post_stored_id (sampleRuntime 1700000000000) tableStore
    (postEvent "\x7b\"name\":\"a\"\x7d") [] [] (.obj [("name", .str "a")]) rfl rfl rfl with
  | ⟨item, h1, h2, _⟩ => ⟨rfl, item, h1, (h2 rfl).1⟩

/-- C2 fails as stated: the body `{"id":"custom","x":1}` posted at clock
1700000000000 is answered 201 and the record written to the store has the
`id` of the caller, `custom`, not the clock text; and for the body
`{"id":""}` the record written has an empty `id`. -/
theorem post_caller_id_not_overwritten :
    (handler (sampleRuntime 1700000000000) (recording tableStore)
        (postEvent "\x7b\"id\":\"custom\",\"x\":1\x7d") ([], [])).1.statusCode = 201 ∧
      (handler (sampleRuntime 1700000000000) (recording tableStore)
        (postEvent "\x7b\"id\":\"custom\",\"x\":1\x7d") ([], [])).2.2
        = [.put ⟨some "items", .obj [("id", .str "custom"), ("x", .num 1)]⟩] ∧
      itemKey (.obj [("id", .str "custom"), ("x", .num 1)])
        ≠ some (.str (toString 1700000000000)) ∧
      (handler (sampleRuntime 1700000000000) (recording tableStore)
        (postEvent "\x7b\"id\":\"\"\x7d") ([], [])).1.statusCode = 201 ∧
      (handler (sampleRuntime 1700000000000) (recording tableStore)
        (postEvent "\x7b\"id\":\"\"\x7d") ([], [])).2.2
        = [.put ⟨some "items", .obj [("id", .str "")]⟩] := by
  decide

/-- C3: a `POST` whose body parses as a JSON object with an `id` field and
whose put succeeds is answered 201; the record sent to the store, which is
the record encoded in the response body, has the `id` of the body. For the
body `{"id":"custom","x":1}` the response body is `{"id":"custom","x":1}`. -/
theorem post_caller_id_wins {σ : Type} (rt : Runtime) (docClient : DocClient σ)
    (event : Event) (s : σ) (tr : List Command) (B : Props Json) (v : Json)
    (hmethod : event.httpMethod = some "POST")
    (hparse : rt.parse event.body = .ok (.obj B))
    (hid : getProp B "id" = some v)
    (hput : (docClient.sendPut ⟨rt.TABLE_NAME, itemToPut rt.now (.obj B)⟩ s).1 = .ok ()) :
    ∃ record : Props Json,
      (handler rt (recording docClient) event (s, tr)).1.statusCode = 201 ∧
      (handler rt (recording docClient) event (s, tr)).1.body = JSON.stringify (.obj record) ∧
      (handler rt (recording docClient) event (s, tr)).2.2
        = tr ++ [.put ⟨rt.TABLE_NAME, .obj record⟩] ∧
      getProp record "id" = some v ∧
      (B = [("id", .str "custom"), ("x", .num 1)] →
        (handler rt (recording docClient) event (s, tr)).1.body
          = "\x7b\"id\":\"custom\",\"x\":1\x7d") := by
  have hrun := handler_post_ok rt (recording docClient) event (s, tr) (.obj B) hmethod hparse hput
  refine ⟨copyDataProperties [("id", .str (toString rt.now))] B, ?_, ?_, ?_, ?_, ?_⟩
  · rw [hrun]
  · rw [hrun]
    rfl
  · rw [hrun]
    rfl
  · rw [getProp_copyDataProperties, hid]
    rfl
  · intro hB
    subst hB
    rw [hrun]
    have hitem : itemToPut rt.now (.obj [("id", .str "custom"), ("x", .num 1)])
        = .obj [("id", .str "custom"), ("x", .num 1)] := rfl
    rw [hitem]
    show JSON.stringify (.obj [("id", .str "custom"), ("x", .num 1)]) = _
    decide

/-- Witness of C3: the body `{"id":"custom","x":1}` posted at clock
1700000000000 to an empty table. -/
theorem post_caller_id_wins_witness :
    (sampleRuntime 1700000000000).parse (postEvent "\x7b\"id\":\"custom\",\"x\":1\x7d").body
        = .ok (.obj [("id", .str "custom"), ("x", .num 1)]) ∧
      (handler (sampleRuntime 1700000000000) (recording tableStore)
        (postEvent "\x7b\"id\":\"custom\",\"x\":1\x7d") ([], [])).1.statusCode = 201 ∧
      (handler (sampleRuntime 1700000000000) (recording tableStore)
        (postEvent "\x7b\"id\":\"custom\",\"x\":1\x7d") ([], [])).1.body
        = "\x7b\"id\":\"custom\",\"x\":1\x7d" :=
  match post_caller_id_wins (sampleRuntime 1700000000000) tableStore
    (postEvent "\x7b\"id\":\"custom\",\"x\":1\x7d") [] []
    [("id", .str "custom"), ("x", .num 1)] (.str "custom") rfl rfl rfl rfl with
  | ⟨_, h1, _, _, _, h5⟩ => ⟨rfl, h1, h5 rfl⟩

/-- C4: an event whose method is neither `POST` nor `GET` (absent, or any
other string), whatever its body, is answered 405 with the body
`{"message":"Method Not Allowed"}`, and no command is sent to the store: the
call trace and the store state are as before. -/
theorem other_method_rejected {σ : Type} (rt : Runtime) (docClient : DocClient σ)
    (event : Event) (s : σ) (tr : List Command)
    (hpost : event.httpMethod ≠ some "POST") (hget : event.httpMethod ≠ some "GET") :
    (handler rt (recording docClient) event (s, tr)).1.statusCode = 405 ∧
      (handler rt (recording docClient) event (s, tr)).1.body
        = JSON.stringify (.obj [("message", .str "Method Not Allowed")]) ∧
      (handler rt (recording docClient) event (s, tr)).1.body
        = "\x7b\"message\":\"Method Not Allowed\"\x7d" ∧
      (handler rt (recording docClient) event (s, tr)).2 = (s, tr) := by
  rw [handler_other rt (recording docClient) event (s, tr) hpost hget]
  exact ⟨rfl, rfl, stringify_notAllowed, rfl⟩

/-- Witness of C4: `DELETE` and `OPTIONS` with a body, lower-case `get`, and
an event without method. -/
theorem other_method_rejected_witness :
    ((handler (sampleRuntime 5) (recording tableStore)
        ⟨some "DELETE", some "\x7b\"name\":\"a\"\x7d"⟩ ([], [])).1.statusCode = 405 ∧
      (handler (sampleRuntime 5) (recording tableStore)
        ⟨some "DELETE", some "\x7b\"name\":\"a\"\x7d"⟩ ([], [])).2 = ([], [])) ∧
    ((handler (sampleRuntime 5) (recording tableStore)
        ⟨some "OPTIONS", some "not json"⟩ ([], [])).1.statusCode = 405 ∧
      (handler (sampleRuntime 5) (recording tableStore)
        ⟨some "OPTIONS", some "not json"⟩ ([], [])).2 = ([], [])) ∧
    ((handler (sampleRuntime 5) (recording tableStore)
        ⟨some "get", none⟩ ([], [])).1.statusCode = 405 ∧
      (handler (sampleRuntime 5) (recording tableStore)
        ⟨some "get", none⟩ ([], [])).2 = ([], [])) ∧
    ((handler (sampleRuntime 5) (recording tableStore)
        ⟨none, none⟩ ([], [])).1.statusCode = 405 ∧
      (handler (sampleRuntime 5) (recording tableStore)
        ⟨none, none⟩ ([], [])).2 = ([], [])) :=
  ⟨⟨(other_method_rejected (sampleRuntime 5) tableStore
        ⟨some "DELETE", some "\x7b\"name\":\"a\"\x7d"⟩ [] [] (by decide) (by decide)).1,
      (other_method_rejected (sampleRuntime 5) tableStore
        ⟨some "DELETE", some "\x7b\"name\":\"a\"\x7d"⟩ [] [] (by decide) (by decide)).2.2.2⟩,
    ⟨(other_method_rejected (sampleRuntime 5) tableStore
        ⟨some "OPTIONS", some "not json"⟩ [] [] (by decide) (by decide)).1,
      (other_method_rejected (sampleRuntime 5) tableStore
        ⟨some "OPTIONS", some "not json"⟩ [] [] (by decide) (by decide)).2.2.2⟩,
    ⟨(other_method_rejected (sampleRuntime 5) tableStore
        ⟨some "get", none⟩ [] [] (by decide) (by decide)).1,
      (other_method_rejected (sampleRuntime 5) tableStore
        ⟨some "get", none⟩ [] [] (by decide) (by decide)).2.2.2⟩,
    ⟨(other_method_rejected (sampleRuntime 5) tableStore
        ⟨none, none⟩ [] [] (by decide) (by decide)).1,
      (other_method_rejected (sampleRuntime 5) tableStore
        ⟨none, none⟩ [] [] (by decide) (by decide)).2.2.2⟩⟩

/-- C5: on every path, whatever the event, the outcome of parsing and the
outcome of the store call, the headers of the response are exactly
`Content-Type: application/json`, `Access-Control-Allow-Origin: *`,
`Access-Control-Allow-Methods: GET, POST, OPTIONS` and
`Access-Control-Allow-Headers: Content-Type`. -/
theorem headers_fixed {σ : Type} (rt : Runtime) (docClient : DocClient σ)
    (event : Event) (s : σ) :
    (handler rt docClient event s).1.headers =
      [("Content-Type", "application/json"), ("Access-Control-Allow-Origin", "*"),
        ("Access-Control-Allow-Methods", "GET, POST, OPTIONS"),
        ("Access-Control-Allow-Headers", "Content-Type")] := by
  by_cases hpost : event.httpMethod = some "POST"
  · cases hparse : rt.parse event.body with
    | error m =>
      rw [handler_post_parse_error rt docClient event s m hpost hparse]
      exact withCors_contentType
    | ok body =>
      cases hput : (docClient.sendPut ⟨rt.TABLE_NAME, itemToPut rt.now body⟩ s).1 with
      | error m =>
        rw [handler_post_put_error rt docClient event s body m hpost hparse hput]
        exact withCors_contentType
      | ok u =>
        rw [handler_post_ok rt docClient event s body hpost hparse hput]
        exact withCors_contentType
  · by_cases hget : event.httpMethod = some "GET"
    · cases hscan : (docClient.sendScan ⟨rt.TABLE_NAME⟩ s).1 with
      | error m =>
        rw [handler_get_error rt docClient event s m hget hscan]
        exact withCors_contentType
      | ok L =>
        rw [handler_get_ok rt docClient event s L hget hscan]
        exact withCors_contentType
    · rw [handler_other rt docClient event s hpost hget]
      exact withCors_contentType

/-- C6: when a `POST` or `GET` raises a failure with message `m`, in parsing
the body or in the store call, the handler returns a response: status 500
and the JSON encoding of `{"message":"Internal Server Error","error":m}`,
the same shape for both kinds of failure, with its `error` member. -/
theorem failure_answered_500 {σ : Type} (rt : Runtime) (docClient : DocClient σ)
    (event : Event) (s : σ) (m : String)
    (hfail :
      (event.httpMethod = some "POST" ∧ rt.parse event.body = .error m) ∨
      (event.httpMethod = some "POST" ∧ ∃ body, rt.parse event.body = .ok body ∧
        (docClient.sendPut ⟨rt.TABLE_NAME, itemToPut rt.now body⟩ s).1 = .error m) ∨
      (event.httpMethod = some "GET" ∧
        (docClient.sendScan ⟨rt.TABLE_NAME⟩ s).1 = .error m)) :
    (handler rt docClient event s).1.statusCode = 500 ∧
      (handler rt docClient event s).1.body = JSON.stringify
        (.obj [("message", .str "Internal Server Error"), ("error", .str m)]) ∧
      (handler rt docClient event s).1.body =
        "\x7b\"message\":\"Internal Server Error\",\"error\":" ++ quote m ++ "\x7d" := by
  have hshape : ∀ st : σ,
      (({ errorResponse m with headers := withCors (errorResponse m).headers }, st) :
        Response × σ).1.statusCode = 500 ∧
      (({ errorResponse m with headers := withCors (errorResponse m).headers }, st) :
        Response × σ).1.body = JSON.stringify
          (.obj [("message", .str "Internal Server Error"), ("error", .str m)]) ∧
      (({ errorResponse m with headers := withCors (errorResponse m).headers }, st) :
        Response × σ).1.body =
          "\x7b\"message\":\"Internal Server Error\",\"error\":" ++ quote m ++ "\x7d" :=
    fun _ => ⟨rfl, rfl, stringify_error m⟩
  rcases hfail with ⟨hpost, hparse⟩ | ⟨hpost, body, hparse, hput⟩ | ⟨hget, hscan⟩
  · rw [handler_post_parse_error rt docClient event s m hpost hparse]
    exact hshape _
  · rw [handler_post_put_error rt docClient event s body m hpost hparse hput]
    exact hshape _
  · rw [handler_get_error rt docClient event s m hget hscan]
    exact hshape _

/-- Witness of C6: a `POST` whose body is not JSON, a `POST` without body,
and a `POST` and a `GET` on a store that rejects every call. -/
theorem failure_answered_500_witness :
    ((handler (sampleRuntime 5) tableStore (postEvent "not json") []).1.statusCode = 500 ∧
      (handler (sampleRuntime 5) tableStore (postEvent "not json") []).1.body
        = "\x7b\"message\":\"Internal Server Error\",\"error\":\"Unexpected token\"\x7d") ∧
    (handler (sampleRuntime 5) tableStore ⟨some "POST", none⟩ []).1.statusCode = 500 ∧
    ((handler (sampleRuntime 5) (failingClient "Table not found")
        (postEvent "\x7b\"name\":\"a\"\x7d") ()).1.statusCode = 500 ∧
      (handler (sampleRuntime 5) (failingClient "Table not found")
        (postEvent "\x7b\"name\":\"a\"\x7d") ()).1.body
        = "\x7b\"message\":\"Internal Server Error\",\"error\":\"Table not found\"\x7d") ∧
    (handler (sampleRuntime 5) (failingClient "Table not found")
      getEvent ()).1.statusCode = 500 :=
  ⟨⟨(failure_answered_500 (sampleRuntime 5) tableStore (postEvent "not json") []
        "Unexpected token" (Or.inl ⟨rfl, rfl⟩)).1,
      (failure_answered_500 (sampleRuntime 5) tableStore (postEvent "not json") []
        "Unexpected token" (Or.inl ⟨rfl, rfl⟩)).2.2⟩,
    (failure_answered_500 (sampleRuntime 5) tableStore ⟨some "POST", none⟩ []
      "\"undefined\" is not valid JSON" (Or.inl ⟨rfl, rfl⟩)).1,
    ⟨(failure_answered_500 (sampleRuntime 5) (failingClient "Table not found")
        (postEvent "\x7b\"name\":\"a\"\x7d") () "Table not found"
        (Or.inr (Or.inl ⟨rfl, .obj [("name", .str "a")], rfl, rfl⟩))).1,
      (failure_answered_500 (sampleRuntime 5) (failingClient "Table not found")
        (postEvent "\x7b\"name\":\"a\"\x7d") () "Table not found"
        (Or.inr (Or.inl ⟨rfl, .obj [("name", .str "a")], rfl, rfl⟩))).2.2⟩,
    (failure_answered_500 (sampleRuntime 5) (failingClient "Table not found")
      getEvent () "Table not found" (Or.inr (Or.inr ⟨rfl, rfl⟩))).1⟩

/-- C7: a `GET` whose scan succeeds with the items `L` is answered 200 with
the JSON encoding of `L`, the encodings of the items in the order of `L`
between brackets, whatever the body of the event; the body is `[]` when the
scan returns no item and `[{"id":"1"}]` when it returns the one item
`{"id":"1"}`. -/
theorem get_lists_items {σ : Type} (rt : Runtime) (docClient : DocClient σ)
    (event : Event) (s : σ) (L : List Json)
    (hmethod : event.httpMethod = some "GET")
    (hscan : (docClient.sendScan ⟨rt.TABLE_NAME⟩ s).1 = .ok L) :
    (handler rt docClient event s).1.statusCode = 200 ∧
      (handler rt docClient event s).1.body = JSON.stringify (.arr L) ∧
      (handler rt docClient event s).1.body
        = "[" ++ ",".intercalate (L.map JSON.stringify) ++ "]" ∧
      (L = [] → (handler rt docClient event s).1.body = "[]") ∧
      (L = [.obj [("id", .str "1")]] →
        (handler rt docClient event s).1.body = "[\x7b\"id\":\"1\"\x7d]") := by
  rw [handler_get_ok rt docClient event s L hmethod hscan]
  refine ⟨rfl, rfl, stringify_arr L, ?_, ?_⟩
  · intro hL
    subst hL
    show JSON.stringify (.arr []) = _
    decide
  · intro hL
    subst hL
    show JSON.stringify (.arr [.obj [("id", .str "1")]]) = _
    decide

/-- Witness of C7: a `GET` carrying a body on the table holding `{"id":"1"}`,
and a `GET` on the empty table. -/
theorem get_lists_items_witness :
    ((handler (sampleRuntime 5) tableStore ⟨some "GET", some "ignored"⟩
        [.obj [("id", .str "1")]]).1.statusCode = 200 ∧
      (handler (sampleRuntime 5) tableStore ⟨some "GET", some "ignored"⟩
        [.obj [("id", .str "1")]]).1.body = "[\x7b\"id\":\"1\"\x7d]") ∧
    (handler (sampleRuntime 5) tableStore getEvent []).1.body = "[]" :=
  ⟨⟨(get_lists_items (sampleRuntime 5) tableStore ⟨some "GET", some "ignored"⟩
        [.obj [("id", .str "1")]] [.obj [("id", .str "1")]] rfl rfl).1,
      (get_lists_items (sampleRuntime 5) tableStore ⟨some "GET", some "ignored"⟩
        [.obj [("id", .str "1")]] [.obj [("id", .str "1")]] rfl rfl).2.2.2.2 rfl⟩,
    (get_lists_items (sampleRuntime 5) tableStore getEvent [] [] rfl rfl).2.2.2.1 rfl⟩

/-- C10: a `POST` whose body fails to parse is answered 500 without any
command sent to the store: the call trace and the store state are as
before. -/
theorem post_parse_failure_no_call {σ : Type} (rt : Runtime) (docClient : DocClient σ)
    (event : Event) (s : σ) (tr : List Command) (m : String)
    (hmethod : event.httpMethod = some "POST")
    (hparse : rt.parse event.body = .error m) :
    (handler rt (recording docClient) event (s, tr)).1.statusCode = 500 ∧
      (handler rt (recording docClient) event (s, tr)).2 = (s, tr) := by
  rw [handler_post_parse_error rt (recording docClient) event (s, tr) m hmethod hparse]
  exact ⟨rfl, rfl⟩

/-- Witness of C10: a `POST` of text that is not JSON on a table holding one
record. -/
theorem post_parse_failure_no_call_witness :
    (sampleRuntime 5).parse (postEvent "not json").body = .error "Unexpected token" ∧
      (handler (sampleRuntime 5) (recording tableStore) (postEvent "not json")
        ([.obj [("id", .str "1")]], [])).1.statusCode = 500 ∧
      (handler (sampleRuntime 5) (recording tableStore) (postEvent "not json")
        ([.obj [("id", .str "1")]], [])).2 = ([.obj [("id", .str "1")]], []) :=
  ⟨rfl, post_parse_failure_no_call (sampleRuntime 5) tableStore (postEvent "not json")
    [.obj [("id", .str "1")]] [] "Unexpected token" rfl rfl⟩

/-- C9: with the commands sent to the store recorded, a `POST` answered 201
has sent exactly one put, for the configured table, whose item is the record
encoded in the response body; a `GET` has sent exactly one scan for the
configured table and leaves the store as that scan leaves it; any other
method has sent nothing and leaves the store as it was. On the table store a
`GET` and a rejected method leave the contents unchanged. -/
theorem store_calls_by_method {σ : Type} (rt : Runtime) (docClient : DocClient σ)
    (event : Event) (s : σ) (tr : List Command) :
    (event.httpMethod = some "POST" →
      (handler rt (recording docClient) event (s, tr)).1.statusCode = 201 →
      ∃ item : Json,
        (handler rt (recording docClient) event (s, tr)).2.2
          = tr ++ [.put ⟨rt.TABLE_NAME, item⟩] ∧
        (handler rt (recording docClient) event (s, tr)).1.body = JSON.stringify item) ∧
    (event.httpMethod = some "GET" →
      (handler rt (recording docClient) event (s, tr)).2.2 = tr ++ [.scan ⟨rt.TABLE_NAME⟩] ∧
      (handler rt (recording docClient) event (s, tr)).2.1
        = (docClient.sendScan ⟨rt.TABLE_NAME⟩ s).2) ∧
    (event.httpMethod ≠ some "POST" → event.httpMethod ≠ some "GET" →
      (handler rt (recording docClient) event (s, tr)).2 = (s, tr)) ∧
    (event.httpMethod ≠ some "POST" →
      ∀ items : List Json, (handler rt tableStore event items).2 = items) := by
  refine ⟨?_, ?_, ?_, ?_⟩
  · intro hpost h201
    cases hparse : rt.parse event.body with
    | error m =>
      rw [handler_post_parse_error rt (recording docClient) event (s, tr) m hpost hparse] at h201
      exact absurd h201 (by simp [errorResponse])
    | ok body =>
      cases hput : (docClient.sendPut ⟨rt.TABLE_NAME, itemToPut rt.now body⟩ s).1 with
      | error m =>
        rw [handler_post_put_error rt (recording docClient) event (s, tr) body m hpost hparse
          hput] at h201
        exact absurd h201 (by simp [errorResponse])
      | ok u =>
        refine ⟨itemToPut rt.now body, ?_, ?_⟩
        · rw [handler_post_ok rt (recording docClient) event (s, tr) body hpost hparse hput]
          rfl
        · rw [handler_post_ok rt (recording docClient) event (s, tr) body hpost hparse hput]
  · intro hget
    cases hscan : (docClient.sendScan ⟨rt.TABLE_NAME⟩ s).1 with
    | error m =>
      rw [handler_get_error rt (recording docClient) event (s, tr) m hget hscan]
      exact ⟨rfl, rfl⟩
    | ok L =>
      rw [handler_get_ok rt (recording docClient) event (s, tr) L hget hscan]
      exact ⟨rfl, rfl⟩
  · intro hpost hget
    rw [handler_other rt (recording docClient) event (s, tr) hpost hget]
  · intro hpost items
    by_cases hget : event.httpMethod = some "GET"
    · rw [handler_get_ok rt tableStore event items items hget rfl]
      rfl
    · rw [handler_other rt tableStore event items hpost hget]

/-- Witness of C9: a `POST`, a `GET` and a `DELETE` on a table holding one
record. -/
theorem store_calls_by_method_witness :
    (∃ item : Json,
      (handler (sampleRuntime 7) (recording tableStore) (postEvent "\x7b\"name\":\"a\"\x7d")
        ([.obj [("id", .str "1")]], [])).2.2 = [] ++ [.put ⟨some "items", item⟩] ∧
      (handler (sampleRuntime 7) (recording tableStore) (postEvent "\x7b\"name\":\"a\"\x7d")
        ([.obj [("id", .str "1")]], [])).1.body = JSON.stringify item) ∧
    (handler (sampleRuntime 7) (recording tableStore) getEvent
      ([.obj [("id", .str "1")]], [])).2.2 = [] ++ [.scan ⟨some "items"⟩] ∧
    (handler (sampleRuntime 7) (recording tableStore) ⟨some "DELETE", none⟩
      ([.obj [("id", .str "1")]], [])).2 = ([.obj [("id", .str "1")]], []) ∧
    (handler (sampleRuntime 7) tableStore getEvent [.obj [("id", .str "1")]]).2
      = [.obj [("id", .str "1")]] :=
  ⟨(store_calls_by_method (sampleRuntime 7) tableStore (postEvent "\x7b\"name\":\"a\"\x7d")
      [.obj [("id", .str "1")]] []).1 rfl (by decide),
    ((store_calls_by_method (sampleRuntime 7) tableStore getEvent
      [.obj [("id", .str "1")]] []).2.1 rfl).1,
    (store_calls_by_method (sampleRuntime 7) tableStore ⟨some "DELETE", none⟩
      [.obj [("id", .str "1")]] []).2.2.1 (by decide) (by decide),
    (store_calls_by_method (sampleRuntime 7) tableStore getEvent
      [.obj [("id", .str "1")]] []).2.2.2 (by decide) [.obj [("id", .str "1")]]⟩

/-- C8, as the code has it: on the table keyed by `id`, after any number of
`POST` invocations all answered 201 from the empty table, the records sent
to the store are as many as the invocations and are the records encoded in
the responses; when their `id` values are pairwise distinct, a following
`GET` is answered 200 with the encoding of a list that holds exactly these
records, up to order. -/
theorem get_after_posts_distinct_ids (reqs : List (Runtime × Event)) (rtGet : Runtime)
    (eventGet : Event)
    (hposts : ∀ r ∈ reqs, r.2.httpMethod = some "POST")
    (hok : ∀ resp ∈ (invokeAll (recording tableStore) reqs ([], [])).1, resp.statusCode = 201)
    (hget : eventGet.httpMethod = some "GET")
    (hdistinct :
      ((sentItems (invokeAll (recording tableStore) reqs ([], [])).2.2).map itemKey).Nodup) :
    (sentItems (invokeAll (recording tableStore) reqs ([], [])).2.2).length = reqs.length ∧
      (invokeAll (recording tableStore) reqs ([], [])).1.map (fun resp => resp.body)
        = (sentItems (invokeAll (recording tableStore) reqs ([], [])).2.2).map JSON.stringify ∧
      ∃ L : List Json,
        L.Perm (sentItems (invokeAll (recording tableStore) reqs ([], [])).2.2) ∧
        L.length = reqs.length ∧
        (handler rtGet (recording tableStore) eventGet
          (invokeAll (recording tableStore) reqs ([], [])).2).1.statusCode = 200 ∧
        (handler rtGet (recording tableStore) eventGet
          (invokeAll (recording tableStore) reqs ([], [])).2).1.body
          = JSON.stringify (.arr L) := by
  obtain ⟨records, hlen, hbodies, hstore, hsent⟩ := invokeAll_posts reqs [] [] hposts hok
  have hrecords : sentItems (invokeAll (recording tableStore) reqs ([], [])).2.2 = records := by
    simpa [sentItems] using hsent
  rw [hrecords] at hdistinct ⊢
  have htable : (invokeAll (recording tableStore) reqs ([], [])).2.1 = records := by
    rw [hstore, foldl_putItem_distinct records [] (by simpa using hdistinct)]
    simp
  have hscan : ((recording tableStore).sendScan ⟨rtGet.TABLE_NAME⟩
      (invokeAll (recording tableStore) reqs ([], [])).2).1 = .ok records := by
    show Except.ok (invokeAll (recording tableStore) reqs ([], [])).2.1 = _
    rw [htable]
  refine ⟨hlen, hbodies, records, List.Perm.refl _, hlen, ?_, ?_⟩
  · rw [handler_get_ok rtGet (recording tableStore) eventGet _ records hget hscan]
  · rw [handler_get_ok rtGet (recording tableStore) eventGet _ records hget hscan]

/-- Witness of C8 as amended: two `POST`s at different clock readings, then
a `GET`. -/
theorem get_after_posts_distinct_ids_witness :
    (sentItems (invokeAll (recording tableStore)
        [(sampleRuntime 1700000000000, postEvent "\x7b\"name\":\"a\"\x7d"),
          (sampleRuntime 1700000000001, postEvent "\x7b\"name\":\"b\"\x7d")]
        ([], [])).2.2).length = 2 ∧
      ∃ L : List Json,
        L.Perm (sentItems (invokeAll (recording tableStore)
          [(sampleRuntime 1700000000000, postEvent "\x7b\"name\":\"a\"\x7d"),
            (sampleRuntime 1700000000001, postEvent "\x7b\"name\":\"b\"\x7d")]
          ([], [])).2.2) ∧
        (handler (sampleRuntime 1700000000002) (recording tableStore) getEvent
          (invokeAll (recording tableStore)
            [(sampleRuntime 1700000000000, postEvent "\x7b\"name\":\"a\"\x7d"),
              (sampleRuntime 1700000000001, postEvent "\x7b\"name\":\"b\"\x7d")]
            ([], [])).2).1.body = JSON.stringify (.arr L) :=
  match get_after_posts_distinct_ids
    [(sampleRuntime 1700000000000, postEvent "\x7b\"name\":\"a\"\x7d"),
      (sampleRuntime 1700000000001, postEvent "\x7b\"name\":\"b\"\x7d")]
    (sampleRuntime 1700000000002) getEvent (by decide) (by decide) rfl (by decide) with
  | ⟨h1, _, L, hperm, _, _, hbody⟩ => ⟨h1, L, hperm, hbody⟩

/-- C8 fails as stated: two `POST`s with the bodies `{"name":"a"}` and
`{"name":"b"}` at the same clock reading 1700000000000 are both answered
201, with two different records in their bodies, and the following `GET`
returns a list of one record, the second. -/
theorem get_after_posts_same_clock_one_record :
    (invokeAll tableStore
        [(sampleRuntime 1700000000000, postEvent "\x7b\"name\":\"a\"\x7d"),
          (sampleRuntime 1700000000000, postEvent "\x7b\"name\":\"b\"\x7d")] []).1.map
        (fun resp => (resp.statusCode, resp.body))
      = [(201, "\x7b\"id\":\"1700000000000\",\"name\":\"a\"\x7d"),
          (201, "\x7b\"id\":\"1700000000000\",\"name\":\"b\"\x7d")] ∧
    (invokeAll tableStore
        [(sampleRuntime 1700000000000, postEvent "\x7b\"name\":\"a\"\x7d"),
          (sampleRuntime 1700000000000, postEvent "\x7b\"name\":\"b\"\x7d")] []).2
      = [.obj [("id", .str "1700000000000"), ("name", .str "b")]] ∧
    (handler (sampleRuntime 1700000000001) tableStore getEvent
      (invokeAll tableStore
        [(sampleRuntime 1700000000000, postEvent "\x7b\"name\":\"a\"\x7d"),
          (sampleRuntime 1700000000000, postEvent "\x7b\"name\":\"b\"\x7d")] []).2).1.body
      = "[\x7b\"id\":\"1700000000000\",\"name\":\"b\"\x7d]" ∧
    ¬ List.Perm
      (invokeAll tableStore
        [(sampleRuntime 1700000000000, postEvent "\x7b\"name\":\"a\"\x7d"),
          (sampleRuntime 1700000000000, postEvent "\x7b\"name\":\"b\"\x7d")] []).2
      [.obj [("id", .str "1700000000000"), ("name", .str "a")],
        .obj [("id", .str "1700000000000"), ("name", .str "b")]] := by
  refine ⟨by decide, by decide, by decide, ?_⟩
  intro hperm
  have hlen := hperm.length_eq
  revert hlen
  decide

end Lambda
